import Mathlib

/-!
Verification of the conversation-routing core of the project:
`master_router.py` (pending-command state machine and dispatch engine) and
`utils/memory_manager.py` (short-term / long-term memory).

Python `dict`s are modelled as insertion-ordered association lists with the
exact `d[k] = v` / `d.update(e)` semantics: assignment replaces the value in
place when the key exists and appends otherwise.
-/

/-- Insertion-ordered string-keyed mapping, the model of a Python `dict`. -/
abbrev Dict (α : Type) : Type := List (String × α)

/-- Python `k in d`. -/
def Dict.hasKey {α : Type} (d : Dict α) (k : String) : Bool :=
  match d with
  | [] => false
  | kv :: rest => if kv.1 = k then true else Dict.hasKey rest k

/-- Python `d.get(k)` / `d[k]`. -/
def Dict.lookup {α : Type} (d : Dict α) (k : String) : Option α :=
  match d with
  | [] => none
  | kv :: rest => if kv.1 = k then some kv.2 else Dict.lookup rest k

/-- Python `d[k] = v`: replace the value in place if the key exists, append otherwise. -/
def Dict.insert {α : Type} (d : Dict α) (k : String) (v : α) : Dict α :=
  if Dict.hasKey d k then d.map (fun kv => if kv.1 = k then (k, v) else kv)
  else d ++ [(k, v)]

/-- Python `d.update(e)`: assign every binding of `e` into `d`, in order. -/
def Dict.update {α : Type} (d e : Dict α) : Dict α :=
  e.foldl (fun acc kv => Dict.insert acc kv.1 kv.2) d

/-- The keys of the mapping, in insertion order. -/
def Dict.keys {α : Type} (d : Dict α) : List String := d.map Prod.fst

/-- A real Python dict never holds a key twice. -/
def Dict.WF {α : Type} (d : Dict α) : Prop := (Dict.keys d).Nodup

instance {α : Type} (d : Dict α) : Decidable (Dict.WF d) := by
  unfold Dict.WF
  infer_instance

theorem Dict.isSome_lookup {α : Type} (d : Dict α) (k : String) :
    (Dict.lookup d k).isSome = Dict.hasKey d k := by
  induction d with
  | nil => rfl
  | cons kv rest ih =>
    by_cases h : kv.1 = k <;> simp [Dict.lookup, Dict.hasKey, h, ih]

theorem Dict.lookup_eq_none {α : Type} {d : Dict α} {k : String}
    (h : Dict.hasKey d k = false) : Dict.lookup d k = none := by
  have hs := Dict.isSome_lookup d k
  rw [h] at hs
  cases hl : Dict.lookup d k with
  | none => rfl
  | some v => rw [hl] at hs; simp at hs

theorem Dict.lookup_append_of_hasKey_eq_false {α : Type} {d : Dict α} (e : Dict α) {k : String}
    (h : Dict.hasKey d k = false) : Dict.lookup (d ++ e) k = Dict.lookup e k := by
  induction d with
  | nil => rfl
  | cons kv rest ih =>
    by_cases hh : kv.1 = k
    · simp [Dict.hasKey, hh] at h
    · simp only [Dict.hasKey, hh, if_false] at h
      simp only [List.cons_append, Dict.lookup, hh, if_false]
      exact ih h

theorem Dict.lookup_map_replace {α : Type} (d : Dict α) (k : String) (v : α) :
    Dict.lookup (d.map (fun kv => if kv.1 = k then (k, v) else kv)) k =
      if Dict.hasKey d k then some v else none := by
  induction d with
  | nil => rfl
  | cons kv rest ih =>
    by_cases h : kv.1 = k <;> simp [Dict.lookup, Dict.hasKey, h, ih]

theorem Dict.lookup_insert_self {α : Type} (d : Dict α) (k : String) (v : α) :
    Dict.lookup (Dict.insert d k v) k = some v := by
  unfold Dict.insert
  cases h : Dict.hasKey d k with
  | true =>
    rw [if_pos rfl, Dict.lookup_map_replace, if_pos h]
  | false =>
    rw [if_neg Bool.false_ne_true, Dict.lookup_append_of_hasKey_eq_false _ h]
    simp [Dict.lookup]

theorem Dict.lookup_map_replace_ne {α : Type} (d : Dict α) (k : String) (v : α) {q : String}
    (hne : q ≠ k) :
    Dict.lookup (d.map (fun kv => if kv.1 = k then (k, v) else kv)) q = Dict.lookup d q := by
  induction d with
  | nil => rfl
  | cons kv rest ih =>
    by_cases hh : kv.1 = k
    · have hkq : k ≠ q := fun h => hne h.symm
      simp [Dict.lookup, hh, hkq, fun h : kv.1 = q => hkq (hh ▸ h), ih]
    · simp [Dict.lookup, hh, ih]

theorem Dict.lookup_append_single_ne {α : Type} (d : Dict α) (k : String) (v : α) {q : String}
    (hne : q ≠ k) : Dict.lookup (d ++ [(k, v)]) q = Dict.lookup d q := by
  have hkq : k ≠ q := fun h => hne h.symm
  induction d with
  | nil => simp [Dict.lookup, hkq]
  | cons kv rest ih =>
    by_cases hh : kv.1 = q <;> simp [Dict.lookup, hh, ih]

theorem Dict.lookup_insert_ne {α : Type} (d : Dict α) (k : String) (v : α) {q : String}
    (hne : q ≠ k) : Dict.lookup (Dict.insert d k v) q = Dict.lookup d q := by
  unfold Dict.insert
  cases h : Dict.hasKey d k with
  | true =>
    rw [if_pos rfl]
    exact Dict.lookup_map_replace_ne d k v hne
  | false =>
    rw [if_neg Bool.false_ne_true]
    exact Dict.lookup_append_single_ne d k v hne

theorem Dict.hasKey_insert {α : Type} (d : Dict α) (k : String) (v : α) (q : String) :
    Dict.hasKey (Dict.insert d k v) q = (decide (k = q) || Dict.hasKey d q) := by
  rw [← Dict.isSome_lookup, ← Dict.isSome_lookup]
  by_cases hkq : k = q
  · subst hkq
    rw [Dict.lookup_insert_self]
    simp
  · have hne : q ≠ k := fun h => hkq h.symm
    rw [Dict.lookup_insert_ne d k v hne]
    simp [hkq]

theorem Dict.hasKey_update {α : Type} (d e : Dict α) (k : String) :
    Dict.hasKey (Dict.update d e) k = (Dict.hasKey d k || Dict.hasKey e k) := by
  induction e generalizing d with
  | nil => simp [Dict.update, Dict.hasKey]
  | cons kv rest ih =>
    show Dict.hasKey (Dict.update (Dict.insert d kv.1 kv.2) rest) k = _
    rw [ih, Dict.hasKey_insert]
    by_cases hk : kv.1 = k <;>
      · simp only [Dict.hasKey, hk]
        cases Dict.hasKey d k <;> cases Dict.hasKey rest k <;> simp [hk]

theorem Dict.hasKey_eq_false_of_not_mem_keys {α : Type} {d : Dict α} {k : String}
    (h : k ∉ Dict.keys d) : Dict.hasKey d k = false := by
  induction d with
  | nil => rfl
  | cons kv rest ih =>
    simp only [Dict.keys, List.map_cons, List.mem_cons, not_or] at h
    have h1 : kv.1 ≠ k := fun hh => h.1 hh.symm
    simp only [Dict.hasKey, h1, if_false]
    exact ih (by simpa [Dict.keys] using h.2)

theorem Dict.lookup_update {α : Type} (d e : Dict α) (k : String) (hwf : Dict.WF e) :
    Dict.lookup (Dict.update d e) k =
      if Dict.hasKey e k then Dict.lookup e k else Dict.lookup d k := by
  induction e generalizing d with
  | nil => simp [Dict.update, Dict.hasKey, Dict.lookup]
  | cons kv rest ih =>
    obtain ⟨k1, v1⟩ := kv
    have hnodup : k1 ∉ Dict.keys rest ∧ (Dict.keys rest).Nodup := by
      simpa [Dict.WF, Dict.keys] using hwf
    have step : Dict.update d ((k1, v1) :: rest) = Dict.update (Dict.insert d k1 v1) rest := rfl
    rw [step, ih _ hnodup.2]
    by_cases hk : k1 = k
    · subst hk
      have hrest : Dict.hasKey rest k1 = false :=
        Dict.hasKey_eq_false_of_not_mem_keys hnodup.1
      simp [Dict.hasKey, Dict.lookup, hrest, Dict.lookup_insert_self]
    · have hne : k ≠ k1 := fun h => hk h.symm
      have hlk : Dict.lookup (Dict.insert d k1 v1) k = Dict.lookup d k :=
        Dict.lookup_insert_ne d k1 v1 hne
      simp [Dict.hasKey, Dict.lookup, hk, hlk]

theorem Dict.insert_of_hasKey_eq_false {α : Type} {d : Dict α} {k : String} (v : α)
    (h : Dict.hasKey d k = false) : Dict.insert d k v = d ++ [(k, v)] := by
  simp [Dict.insert, h]

/-! ## Data model -/

/-- A value stored in intent params, result objects or long-term memory:
either a string or a list of strings (the `user_memos` list). -/
inductive Value where
  | str : String → Value
  | list : List String → Value
deriving DecidableEq, Repr

/-- Python `str(value)` as used when a value is interpolated into a message.
For non-strings only the bracketed element listing matters to the claims. -/
def Value.text : Value → String
  | Value.str s => s
  | Value.list ms => "[" ++ String.intercalate ", " ms ++ "]"

/-- The structured guess returned by `extract_intent_and_args`, and equally the
shape of a stored pending command (`master_router.py` keeps the parsed dict). -/
structure ParsedIntent where
  agent : String
  action : String
  params : Dict Value
  needs : List String
  raw_input : String
deriving DecidableEq, Repr

/-- One message of the short-term transcript. -/
structure Entry where
  role : String
  content : String
deriving DecidableEq, Repr

/-! ## Memory manager (`utils/memory_manager.py`) -/

/-- `MemoryManager.__init__`: default short-term capacity (`stm_max_len = 20`). -/
def stm_max_len_default : Nat := 20

/-- One `deque(maxlen=n).append(e)` step: append, evicting from the left once
the capacity is exceeded. -/
def push_bounded (max_len : Nat) (xs : List Entry) (e : Entry) : List Entry :=
  let ys := xs ++ [e]
  if ys.length ≤ max_len then ys else ys.drop (ys.length - max_len)

/-- A sequence of single-entry pushes onto the bounded transcript. -/
def push_seq (max_len : Nat) (stm : List Entry) (es : List Entry) : List Entry :=
  es.foldl (push_bounded max_len) stm

/-- `MemoryManager.add_to_short_term`: pushes the user entry then the assistant
entry onto the per-user bounded transcript. -/
def add_to_short_term (max_len : Nat) (stm : List Entry)
    (user_input assistant_response : String) : List Entry :=
  push_bounded max_len
    (push_bounded max_len stm { role := "user", content := user_input })
    { role := "assistant", content := assistant_response }

/-- `MemoryManager.add_to_long_term`: `self.long_term_memory[uid].update(data)`. -/
def add_to_long_term (ltm data : Dict Value) : Dict Value :=
  Dict.update ltm data

/-- `MemoryManager.remember_fact`: create the `user_memos` list if absent, then
`append(fact)`. Python raises (`none`) if the stored value is not a list. -/
def remember_fact (ltm : Dict Value) (fact : String) : Option (Dict Value) :=
  let l1 := if Dict.hasKey ltm "user_memos" then ltm
            else Dict.insert ltm "user_memos" (Value.list [])
  match Dict.lookup l1 "user_memos" with
  | some (Value.list ms) => some (Dict.insert l1 "user_memos" (Value.list (ms ++ [fact])))
  | _ => none

/-! ## Pending-command state machine (`MasterRouter.process` /
`MasterRouter._handle_incomplete_command`, master_router.py lines 59-124) -/

/-- Modelled from the spec: the reprompt template `missing_params` lives in
`config.json`, which is not part of the sources; the spec fixes only that the
reprompt lists the needed parameters in order, comma separated, with
underscores replaced by spaces (`_reprompt_for_missing_params`). -/
def missing_params_msg (needs : List String) : String :=
  "I still need the following information: " ++
    String.intercalate ", " (needs.map (fun m => m.replace "_" " "))

/-- The merge step of `_handle_incomplete_command` (lines 104-112):
`previous_ctx["params"].update(current_parsed["params"])`, then
`remaining = [f for f in original_needs if f not in previous_ctx["params"]]`. -/
def merge_turn (prev cur : ParsedIntent) : ParsedIntent :=
  let merged := Dict.update prev.params cur.params
  { prev with
      params := merged
      needs := prev.needs.filter (fun field => !(Dict.hasKey merged field)) }

/-- What `_handle_incomplete_command` does after the merge: either the pending
entry is deleted and the command is routed, or the entry is kept (with the
remaining needs) and a reprompt is returned. -/
inductive MergeOutcome where
  | dispatch (cmd : ParsedIntent)
  | reprompt (cmd : ParsedIntent) (message : String)
deriving DecidableEq, Repr

/-- The command carried by a merge outcome. -/
def MergeOutcome.cmd : MergeOutcome → ParsedIntent
  | MergeOutcome.dispatch c => c
  | MergeOutcome.reprompt c _ => c

/-- `MasterRouter._handle_incomplete_command` (lines 101-124). In the dispatch
branch the stale `needs` field of the stored command is left untouched, exactly
as in the source (only `params` was mutated before `del`). -/
def handle_incomplete_command (prev cur : ParsedIntent) : MergeOutcome :=
  let m := merge_turn prev cur
  if m.needs.isEmpty then
    MergeOutcome.dispatch { prev with params := m.params }
  else
    MergeOutcome.reprompt m (missing_params_msg m.needs)

/-- Iterated merge turns against one stored pending command. -/
def merge_turns (prev : ParsedIntent) (curs : List ParsedIntent) : ParsedIntent :=
  curs.foldl merge_turn prev

/-- The memory auto-fill of `MasterRouter.process` (lines 79-85): if the fresh
intent still needs `"content"` and long-term memory has a `"code"` key, fill
`params["content"]` from memory and `needs.remove("content")`. -/
def autofill_from_memory (ltm : Dict Value) (cur : ParsedIntent) : ParsedIntent :=
  if cur.needs.contains "content" && Dict.hasKey ltm "code" then
    { cur with
        params := Dict.insert cur.params "content"
          ((Dict.lookup ltm "code").getD (Value.str ""))
        needs := cur.needs.erase "content" }
  else cur

/-- The per-turn outcome of `process` for one user: either a fully specified
command is handed to `_route`, or a message (reprompt) is returned directly. -/
inductive TurnOutcome where
  | routed (cmd : ParsedIntent)
  | responded (message : String)
deriving DecidableEq, Repr

/-- How `process` interprets `_handle_incomplete_command` for the per-user
pending map: dispatch deletes the entry, reprompt keeps the merged command. -/
def apply_pending (prev cur : ParsedIntent) : Option ParsedIntent × TurnOutcome :=
  match handle_incomplete_command prev cur with
  | MergeOutcome.dispatch cmd => (none, TurnOutcome.routed cmd)
  | MergeOutcome.reprompt cmd msg => (some cmd, TurnOutcome.responded msg)

/-- `MasterRouter.process` (lines 77-97) after a successful intent extraction,
for one user: auto-fill from memory, then either merge into the stored pending
command, route directly, or store a new pending command and reprompt. Returns
the new pending entry and the turn outcome. -/
def process (pending : Option ParsedIntent) (ltm : Dict Value)
    (cur0 : ParsedIntent) : Option ParsedIntent × TurnOutcome :=
  let cur := autofill_from_memory ltm cur0
  match pending with
  | some prev => apply_pending prev cur
  | none =>
    if cur.needs.isEmpty then (none, TurnOutcome.routed cur)
    else (some cur, TurnOutcome.responded (missing_params_msg cur.needs))

/-! ## Dispatch engine (`MasterRouter._route`, master_router.py lines 177-246) -/

/-- What a handler operation returns: a dict, or any other value (which the
router wraps via `str(...)`). -/
inductive HandlerReturn where
  | dict (d : Dict Value)
  | other (s : String)

/-- A named operation of a handler: its declared parameter names (what
`inspect.signature(method).parameters` yields) and the callable itself, which
may raise (`Except.error` carries `str(e)`). -/
structure Operation where
  sig_params : List String
  run : Dict Value → Except String HandlerReturn

/-- A handler object: its callable operations by name. `getattr(handler,
action, None)` yielding `None` or a non-callable is modelled as a missing key. -/
abbrev Handler : Type := Dict Operation

/-- The handler registry `self.mcp_servers`, built from configuration. -/
abbrev Registry : Type := Dict Handler

/-- Per-user memory state touched by dispatch. -/
structure UserState where
  stm : List Entry
  ltm : Dict Value
deriving DecidableEq

/-- The external collaborators and configured values `_route` consults:
the commentary beautifier, the follow-up generator, the LLM memory-storage
inference (its returned JSON object; a failure or `{}` is the empty dict),
and the configured flag/template strings. -/
structure RouteEnv where
  chat_agent_name : String
  chat_branch : ParsedIntent → UserState → String × UserState
  beautify : String → String → Option Value → String
  generate_followup : String → String → String
  infer_memory : String → String → Dict Value → Dict Value → Dict Value
  followup_display : String
  none_flag : String
  stm_max_len : Nat
  action_complete : String

/-- Modelled from the spec: the `unsupported_agent` template lives in
`config.json`, which is not part of the sources; the spec fixes only that the
error result names the agent. -/
def unsupported_agent_msg (agent : String) : String :=
  "Unsupported agent: " ++ agent

/-- Modelled from the spec: the `unsupported_action` template lives in
`config.json`; the spec fixes only that the error result names both the agent
and the action. -/
def unsupported_action_msg (agent action : String) : String :=
  "Agent " ++ agent ++ " does not support action: " ++ action

/-- Modelled from the spec: the `execution_error` template lives in
`config.json`; the spec gives the shape `<agent> <action> failed: <message>`. -/
def execution_error_msg (agent action error : String) : String :=
  agent ++ " " ++ action ++ " failed: " ++ error

/-- Lines 220-221: a non-dict return value is wrapped as `{"result": str(v)}`. -/
def normalize_result : HandlerReturn → Dict Value
  | HandlerReturn.dict d => d
  | HandlerReturn.other s => [("result", Value.str s)]

/-- `MasterRouter._infer_and_store_memory` (lines 276-305): the hard-coded
`developer`/`generate_code` rule takes priority; otherwise the LLM inference is
consulted with the agent, action, (unfiltered) params and result object. An
empty inferred dict (also the model of an inference failure) stores nothing;
otherwise `add_to_long_term` merges it. -/
def infer_and_store_memory (env : RouteEnv) (ltm : Dict Value)
    (agent action : String) (params result_obj : Dict Value) : Dict Value :=
  let inferred :=
    if agent = "developer" && action = "generate_code" && Dict.hasKey result_obj "result" then
      [("code", (Dict.lookup result_obj "result").getD (Value.str ""))]
    else
      env.infer_memory agent action params result_obj
  if inferred.isEmpty then ltm else add_to_long_term ltm inferred

/-- Lines 220-246 of `_route`, after the operation returned successfully:
normalized result object in hand, build the result text (appending the file
content display for `get_file_content`, reading `file_path` from the
*unfiltered* params), run memory inference (with the unfiltered params), append
the turn to short-term memory, beautify, and attach a follow-up suggestion. -/
def dispatch_success (env : RouteEnv) (st : UserState) (agent action raw_input : String)
    (params : Dict Value) (result_obj : Dict Value) : String × UserState :=
  let raw0 := Value.text ((Dict.lookup result_obj "result").getD (Value.str env.action_complete))
  let raw_result_text :=
    if action = "get_file_content" && Dict.hasKey result_obj "content" then
      raw0 ++ "\n\nHere is the content of `"
        ++ Value.text ((Dict.lookup params "file_path").getD (Value.str "the file"))
        ++ "`:\n\n```python\n"
        ++ Value.text ((Dict.lookup result_obj "content").getD (Value.str ""))
        ++ "\n```"
    else raw0
  let ltm2 := infer_and_store_memory env st.ltm agent action params result_obj
  let stm2 := add_to_short_term env.stm_max_len st.stm raw_input raw_result_text
  let beautified := env.beautify raw_input raw_result_text (Dict.lookup result_obj "link")
  let final1 := if beautified.trim.isEmpty then raw_result_text else beautified
  let fu := env.generate_followup raw_input raw_result_text
  let final2 :=
    if !fu.isEmpty && fu.toUpper ≠ env.none_flag then
      final1 ++ "\n\n" ++ env.followup_display ++ fu
    else final1
  (final2.trim, { stm := stm2, ltm := ltm2 })

/-- Line 215: `{k: v for k, v in params.items() if k in sig.parameters}`. -/
def filter_params (op : Operation) (params : Dict Value) : Dict Value :=
  params.filter (fun kv => op.sig_params.contains kv.1)

/-- `MasterRouter._route` (lines 177-246). The chat-agent special case (lines
185-199) is delegated to the opaque `env.chat_branch`; for every other agent:
resolve the handler, resolve the action, filter the params down to the
operation signature, invoke, and on an exception return the formatted error
without touching memory. -/
def route (env : RouteEnv) (registry : Registry) (st : UserState)
    (parsed : ParsedIntent) : String × UserState :=
  if parsed.agent = env.chat_agent_name then
    env.chat_branch parsed st
  else
    match Dict.lookup registry parsed.agent with
    | none => (unsupported_agent_msg parsed.agent, st)
    | some handler =>
      match Dict.lookup handler parsed.action with
      | none => (unsupported_action_msg parsed.agent parsed.action, st)
      | some op =>
        match op.run (filter_params op parsed.params) with
        | Except.error e => (execution_error_msg parsed.agent parsed.action e, st)
        | Except.ok ret =>
          dispatch_success env st parsed.agent parsed.action parsed.raw_input parsed.params
            (normalize_result ret)

/-! ## Merge lemmas -/

theorem merge_turn_params (prev cur : ParsedIntent) :
    (merge_turn prev cur).params = Dict.update prev.params cur.params := rfl

theorem merge_turn_needs (prev cur : ParsedIntent) :
    (merge_turn prev cur).needs =
      prev.needs.filter
        (fun field => !(Dict.hasKey (Dict.update prev.params cur.params) field)) := rfl

theorem merge_turn_needs_sublist (prev cur : ParsedIntent) :
    (merge_turn prev cur).needs.Sublist prev.needs := by
  rw [merge_turn_needs]
  exact List.filter_sublist prev.needs

theorem merge_turns_needs_sublist (curs : List ParsedIntent) (prev : ParsedIntent) :
    (merge_turns prev curs).needs.Sublist prev.needs := by
  induction curs generalizing prev with
  | nil => exact List.Sublist.refl _
  | cons c cs ih =>
    have step : merge_turns prev (c :: cs) = merge_turns (merge_turn prev c) cs := rfl
    rw [step]
    exact (ih (merge_turn prev c)).trans (merge_turn_needs_sublist prev c)

theorem merge_turn_frame (prev cur : ParsedIntent) :
    (merge_turn prev cur).agent = prev.agent ∧ (merge_turn prev cur).action = prev.action ∧
      (merge_turn prev cur).raw_input = prev.raw_input :=
  ⟨rfl, rfl, rfl⟩

theorem merge_turns_frame (curs : List ParsedIntent) (prev : ParsedIntent) :
    (merge_turns prev curs).agent = prev.agent ∧ (merge_turns prev curs).action = prev.action ∧
      (merge_turns prev curs).raw_input = prev.raw_input := by
  induction curs generalizing prev with
  | nil => exact ⟨rfl, rfl, rfl⟩
  | cons c cs ih =>
    have step : merge_turns prev (c :: cs) = merge_turns (merge_turn prev c) cs := rfl
    rw [step]
    exact ih (merge_turn prev c)

/-! ## Claim theorems: the pending-command state machine -/

/-- C1: merging a newly parsed intent P into a stored pending command C updates
the params of C with the values of P winning on key collision; the remaining
needs are exactly the keys of the needs list of C, in that order, absent from
the merged params; if none remain the pending entry is deleted and C is
dispatched, otherwise the needs of C become the remaining list, the entry is
kept, and the user is reprompted for the remaining needs. -/
theorem c1_pending_merge (prev cur : ParsedIntent) (hwf : Dict.WF cur.params) :
    (∀ k : String, Dict.lookup (merge_turn prev cur).params k =
        if Dict.hasKey cur.params k then Dict.lookup cur.params k
        else Dict.lookup prev.params k)
  ∧ (merge_turn prev cur).needs.Sublist prev.needs
  ∧ (∀ k : String, k ∈ (merge_turn prev cur).needs ↔
        k ∈ prev.needs ∧ Dict.hasKey (merge_turn prev cur).params k = false)
  ∧ (handle_incomplete_command prev cur =
      if (merge_turn prev cur).needs.isEmpty then
        MergeOutcome.dispatch { prev with params := (merge_turn prev cur).params }
      else
        MergeOutcome.reprompt (merge_turn prev cur)
          (missing_params_msg (merge_turn prev cur).needs))
  ∧ (∀ cmd, handle_incomplete_command prev cur = MergeOutcome.dispatch cmd →
        apply_pending prev cur = (none, TurnOutcome.routed cmd))
  ∧ (∀ cmd msg, handle_incomplete_command prev cur = MergeOutcome.reprompt cmd msg →
        apply_pending prev cur = (some cmd, TurnOutcome.responded msg)) := by
  refine ⟨?_, merge_turn_needs_sublist prev cur, ?_, rfl, ?_, ?_⟩
  · intro k
    rw [merge_turn_params]
    exact Dict.lookup_update prev.params cur.params k hwf
  · intro k
    rw [merge_turn_needs, merge_turn_params]
    simp [List.mem_filter]
  · intro cmd h
    simp [apply_pending, h]
  · intro cmd msg h
    simp [apply_pending, h]

/-- C2: over any sequence of merge turns on one pending command, the length of
the needs list never increases from one turn to the next, and the needs list
always remains a subset (indeed an ordered sublist) of the original needs. -/
theorem c2_needs_monotone (prev : ParsedIntent) (curs : List ParsedIntent) :
    (merge_turns prev curs).needs.Sublist prev.needs
  ∧ (∀ cur : ParsedIntent,
      (merge_turn (merge_turns prev curs) cur).needs.length ≤
        (merge_turns prev curs).needs.length)
  ∧ (∀ k, k ∈ (merge_turns prev curs).needs → k ∈ prev.needs) := by
  refine ⟨merge_turns_needs_sublist curs prev, ?_, ?_⟩
  · intro cur
    rw [merge_turn_needs]
    exact List.length_filter_le _ _
  · intro k hk
    exact (merge_turns_needs_sublist curs prev).subset hk

/-- C3: a merge turn never modifies the `agent` or `action` (or `raw_input`)
of the stored pending command: both branches of `_handle_incomplete_command`,
and any iterated sequence of merge turns, change only `params` and `needs`. -/
theorem c3_merge_frame (prev cur : ParsedIntent) (curs : List ParsedIntent) :
    ((handle_incomplete_command prev cur).cmd.agent = prev.agent
      ∧ (handle_incomplete_command prev cur).cmd.action = prev.action
      ∧ (handle_incomplete_command prev cur).cmd.raw_input = prev.raw_input)
  ∧ ((merge_turns prev curs).agent = prev.agent
      ∧ (merge_turns prev curs).action = prev.action
      ∧ (merge_turns prev curs).raw_input = prev.raw_input) := by
  constructor
  · by_cases h : (merge_turn prev cur).needs.isEmpty
    · have hd : handle_incomplete_command prev cur =
          MergeOutcome.dispatch { prev with params := (merge_turn prev cur).params } := by
        unfold handle_incomplete_command
        simp [h]
      rw [hd]
      exact ⟨rfl, rfl, rfl⟩
    · have hr : handle_incomplete_command prev cur =
          MergeOutcome.reprompt (merge_turn prev cur)
            (missing_params_msg (merge_turn prev cur).needs) := by
        unfold handle_incomplete_command
        simp [h]
      rw [hr]
      exact ⟨rfl, rfl, rfl⟩
  · exact merge_turns_frame curs prev

/-- Concrete pending command for the C1 witness (two-turn slot fill). -/
def c1prev : ParsedIntent :=
  { agent := "jira", action := "create_ticket",
    params := [("title", Value.str "Bug")],
    needs := ["project_key", "summary"], raw_input := "file a bug" }

/-- Concrete follow-up intent for the C1 witness. -/
def c1cur : ParsedIntent :=
  { agent := "jira", action := "create_ticket",
    params := [("project_key", Value.str "ABC")],
    needs := [], raw_input := "ABC" }

/-- Witness for C1 at a concrete merge turn. -/
theorem c1_pending_merge_witness :
    Dict.WF c1cur.params
  ∧ ((∀ k : String, Dict.lookup (merge_turn c1prev c1cur).params k =
        if Dict.hasKey c1cur.params k then Dict.lookup c1cur.params k
        else Dict.lookup c1prev.params k)
    ∧ (merge_turn c1prev c1cur).needs.Sublist c1prev.needs
    ∧ (∀ k : String, k ∈ (merge_turn c1prev c1cur).needs ↔
        k ∈ c1prev.needs ∧ Dict.hasKey (merge_turn c1prev c1cur).params k = false)
    ∧ (handle_incomplete_command c1prev c1cur =
        if (merge_turn c1prev c1cur).needs.isEmpty then
          MergeOutcome.dispatch { c1prev with params := (merge_turn c1prev c1cur).params }
        else
          MergeOutcome.reprompt (merge_turn c1prev c1cur)
            (missing_params_msg (merge_turn c1prev c1cur).needs))
    ∧ (∀ cmd, handle_incomplete_command c1prev c1cur = MergeOutcome.dispatch cmd →
        apply_pending c1prev c1cur = (none, TurnOutcome.routed cmd))
    ∧ (∀ cmd msg, handle_incomplete_command c1prev c1cur = MergeOutcome.reprompt cmd msg →
        apply_pending c1prev c1cur = (some cmd, TurnOutcome.responded msg))) :=
  ⟨by decide, c1_pending_merge c1prev c1cur (by decide)⟩

/-- C4: when the fresh intent needs `"content"` and long-term memory holds a
`"code"` key, `params["content"]` is set to the long-term value of `"code"`,
`"content"` is removed from the needs list, and this happens before the merge
logic for a stored pending command runs (the merge receives the auto-filled
intent). The agent and action are untouched by the fill. -/
theorem c4_memory_autofill (ltm : Dict Value) (cur : ParsedIntent)
    (hneed : "content" ∈ cur.needs) (hcode : Dict.hasKey ltm "code" = true) :
    Dict.lookup (autofill_from_memory ltm cur).params "content" = Dict.lookup ltm "code"
  ∧ (autofill_from_memory ltm cur).needs = cur.needs.erase "content"
  ∧ (cur.needs.Nodup → "content" ∉ (autofill_from_memory ltm cur).needs)
  ∧ (∀ prev, process (some prev) ltm cur = apply_pending prev (autofill_from_memory ltm cur))
  ∧ (autofill_from_memory ltm cur).agent = cur.agent
  ∧ (autofill_from_memory ltm cur).action = cur.action := by
  have hcontains : cur.needs.contains "content" = true :=
    List.elem_eq_true_of_mem hneed
  have hcond : (cur.needs.contains "content" && Dict.hasKey ltm "code") = true := by
    rw [hcontains, hcode]; rfl
  have hfill : autofill_from_memory ltm cur =
      { cur with
          params := Dict.insert cur.params "content"
            ((Dict.lookup ltm "code").getD (Value.str ""))
          needs := cur.needs.erase "content" } := by
    unfold autofill_from_memory
    rw [if_pos hcond]
  refine ⟨?_, ?_, ?_, ?_, ?_, ?_⟩
  · rw [hfill]
    show Dict.lookup (Dict.insert cur.params "content"
      ((Dict.lookup ltm "code").getD (Value.str ""))) "content" = Dict.lookup ltm "code"
    rw [Dict.lookup_insert_self]
    have hsome : (Dict.lookup ltm "code").isSome = true := by
      rw [Dict.isSome_lookup, hcode]
    cases hl : Dict.lookup ltm "code" with
    | none => rw [hl] at hsome; simp at hsome
    | some w => simp [hl]
  · rw [hfill]
  · intro hnd
    rw [hfill]
    exact hnd.not_mem_erase
  · intro prev
    rfl
  · rw [hfill]
  · rw [hfill]

/-- Concrete long-term memory for the C4 witness. -/
def c4ltm : Dict Value := [("code", Value.str "print(1)")]

/-- Concrete fresh intent for the C4 witness. -/
def c4cur : ParsedIntent :=
  { agent := "developer", action := "run_code", params := [],
    needs := ["content"], raw_input := "run it" }

/-- Witness for C4 at a concrete intent and memory. -/
theorem c4_memory_autofill_witness :
    ("content" ∈ c4cur.needs)
  ∧ (Dict.hasKey c4ltm "code" = true)
  ∧ (Dict.lookup (autofill_from_memory c4ltm c4cur).params "content" = Dict.lookup c4ltm "code"
    ∧ (autofill_from_memory c4ltm c4cur).needs = c4cur.needs.erase "content"
    ∧ (c4cur.needs.Nodup → "content" ∉ (autofill_from_memory c4ltm c4cur).needs)
    ∧ (∀ prev, process (some prev) c4ltm c4cur =
        apply_pending prev (autofill_from_memory c4ltm c4cur))
    ∧ (autofill_from_memory c4ltm c4cur).agent = c4cur.agent
    ∧ (autofill_from_memory c4ltm c4cur).action = c4cur.action) :=
  ⟨by decide, by decide, c4_memory_autofill c4ltm c4cur (by decide) (by decide)⟩

/-- C10 (amended): the auto-fill is conditioned only on the own needs list of
the fresh intent, so when the intent of the new turn does not list `"content"`
the intent passes through the fill unchanged; and provided neither the stored
pending params nor the params of the new turn supply `"content"`, it stays
among the remaining needs and the pending entry is kept with a reprompt. -/
theorem c10_autofill_scope (ltm : Dict Value) (prev cur : ParsedIntent)
    (hprev : "content" ∈ prev.needs) (hcur : "content" ∉ cur.needs)
    (hp : Dict.hasKey prev.params "content" = false)
    (hc : Dict.hasKey cur.params "content" = false) :
    autofill_from_memory ltm cur = cur
  ∧ "content" ∈ (merge_turn prev cur).needs
  ∧ process (some prev) ltm cur =
      (some (merge_turn prev cur),
        TurnOutcome.responded (missing_params_msg (merge_turn prev cur).needs)) := by
  have hcontains : cur.needs.contains "content" = false := by
    cases hcc : cur.needs.contains "content" with
    | false => rfl
    | true => exact absurd (List.mem_of_elem_eq_true hcc) hcur
  have hid : autofill_from_memory ltm cur = cur := by
    unfold autofill_from_memory
    rw [hcontains]
    simp
  have hmerged : Dict.hasKey (Dict.update prev.params cur.params) "content" = false := by
    rw [Dict.hasKey_update, hp, hc]; rfl
  have hmem : "content" ∈ (merge_turn prev cur).needs := by
    rw [merge_turn_needs, List.mem_filter]
    exact ⟨hprev, by rw [hmerged]; rfl⟩
  have hne : ¬ (merge_turn prev cur).needs.isEmpty = true := by
    intro h
    rw [List.isEmpty_iff.mp h] at hmem
    exact absurd hmem (List.not_mem_nil _)
  have hh : handle_incomplete_command prev cur =
      MergeOutcome.reprompt (merge_turn prev cur)
        (missing_params_msg (merge_turn prev cur).needs) := by
    unfold handle_incomplete_command
    simp [hne]
  refine ⟨hid, hmem, ?_⟩
  show apply_pending prev (autofill_from_memory ltm cur) = _
  rw [hid]
  simp [apply_pending, hh]

/-- Concrete stored pending command for C10. -/
def c10prev : ParsedIntent :=
  { agent := "developer", action := "run_code", params := [],
    needs := ["content"], raw_input := "write code" }

/-- Concrete new-turn intent for the C10 counterexample: the user supplies
`content` directly, so the extractor lists it in params, not in needs. -/
def c10curx : ParsedIntent :=
  { agent := "developer", action := "run_code",
    params := [("content", Value.str "print(2)")],
    needs := [], raw_input := "here is the code" }

/-- Counterexample refuting C10 as stated: the stored pending command still
needs `"content"` and the intent of the new turn does not list `"content"` in
its own needs (it supplies it in params), yet after the turn `"content"` does
not remain among the remaining needs — the pending entry is deleted and the
command dispatched. -/
theorem c10_autofill_counterexample :
    ("content" ∈ c10prev.needs)
  ∧ ("content" ∉ c10curx.needs)
  ∧ (process (some c10prev) [("code", Value.str "print(1)")] c10curx).1 = none := by
  decide

/-- Concrete new-turn intent for the C10 witness: supplies an unrelated param. -/
def c10cur : ParsedIntent :=
  { agent := "developer", action := "run_code",
    params := [("language", Value.str "python")],
    needs := [], raw_input := "use python" }

/-- Witness for the amended C10 at a concrete turn. -/
theorem c10_autofill_scope_witness :
    ("content" ∈ c10prev.needs)
  ∧ ("content" ∉ c10cur.needs)
  ∧ (Dict.hasKey c10prev.params "content" = false)
  ∧ (Dict.hasKey c10cur.params "content" = false)
  ∧ (autofill_from_memory [("code", Value.str "print(1)")] c10cur = c10cur
    ∧ "content" ∈ (merge_turn c10prev c10cur).needs
    ∧ process (some c10prev) [("code", Value.str "print(1)")] c10cur =
        (some (merge_turn c10prev c10cur),
          TurnOutcome.responded (missing_params_msg (merge_turn c10prev c10cur).needs))) :=
  ⟨by decide, by decide, by decide, by decide,
    c10_autofill_scope [("code", Value.str "print(1)")] c10prev c10cur
      (by decide) (by decide) (by decide) (by decide)⟩

/-! ## Short-term memory lemmas -/

/-- The last `n` elements of a list. -/
def take_right {α : Type} (n : Nat) (xs : List α) : List α :=
  xs.drop (xs.length - n)

theorem push_bounded_eq (max_len : Nat) (xs : List Entry) (e : Entry) :
    push_bounded max_len xs e = take_right max_len (xs ++ [e]) := by
  unfold push_bounded take_right
  by_cases h : (xs ++ [e]).length ≤ max_len
  · rw [if_pos h, Nat.sub_eq_zero_of_le h, List.drop_zero]
  · rw [if_neg h]

theorem length_take_right_le {α : Type} (n : Nat) (xs : List α) :
    (take_right n xs).length ≤ n := by
  simp only [take_right, List.length_drop]
  omega

theorem take_right_append_left {α : Type} (n : Nat) (as bs : List α) :
    take_right n (take_right n as ++ bs) = take_right n (as ++ bs) := by
  unfold take_right
  rw [List.drop_append_eq_append_drop, List.drop_append_eq_append_drop, List.drop_drop]
  congr 1
  · congr 1
    simp only [List.length_append, List.length_drop]
    omega
  · congr 1
    simp only [List.length_append, List.length_drop]
    omega

theorem push_seq_eq (n : Nat) (es : List Entry) :
    ∀ stm : List Entry, stm.length ≤ n → push_seq n stm es = take_right n (stm ++ es) := by
  induction es with
  | nil =>
    intro stm h
    simp [push_seq, take_right, Nat.sub_eq_zero_of_le h]
  | cons e es ih =>
    intro stm h
    show push_seq n (push_bounded n stm e) es = _
    have hlen : (push_bounded n stm e).length ≤ n := by
      rw [push_bounded_eq]
      exact length_take_right_le n (stm ++ [e])
    rw [ih _ hlen, push_bounded_eq, take_right_append_left]
    congr 1
    simp

/-! ## Claim theorem: the short-term transcript -/

/-- C8: one recorded interaction pushes exactly the two entries `user` then
`assistant` onto the transcript (when capacity allows, they land at the end in
that order); the transcript never exceeds the capacity `N` (default 20); and
pushing `N + 1` single entries onto an empty transcript capped at `N` leaves
exactly the most recent `N` entries, the oldest evicted, in insertion order. -/
theorem c8_short_term_eviction :
    stm_max_len_default = 20
  ∧ (∀ (max_len : Nat) (stm : List Entry) (u a : String), stm.length + 2 ≤ max_len →
      add_to_short_term max_len stm u a =
        stm ++ [{ role := "user", content := u }, { role := "assistant", content := a }])
  ∧ (∀ (max_len : Nat) (stm : List Entry) (u a : String),
      (add_to_short_term max_len stm u a).length ≤ max_len)
  ∧ (∀ (n : Nat) (es : List Entry), es.length = n + 1 →
      push_seq n [] es = es.drop 1) := by
  refine ⟨rfl, ?_, ?_, ?_⟩
  · intro max_len stm u a h
    unfold add_to_short_term
    have h1 : (stm ++ [({ role := "user", content := u } : Entry)]).length ≤ max_len := by
      simp only [List.length_append, List.length_singleton]
      omega
    have hp1 : push_bounded max_len stm { role := "user", content := u } =
        stm ++ [{ role := "user", content := u }] := by
      unfold push_bounded
      rw [if_pos h1]
    rw [hp1]
    have h2 : ((stm ++ [({ role := "user", content := u } : Entry)]) ++
        [({ role := "assistant", content := a } : Entry)]).length ≤ max_len := by
      simp only [List.length_append, List.length_singleton]
      omega
    unfold push_bounded
    rw [if_pos h2]
    simp
  · intro max_len stm u a
    unfold add_to_short_term
    rw [push_bounded_eq]
    exact length_take_right_le _ _
  · intro n es h
    rw [push_seq_eq n es [] (Nat.zero_le n), List.nil_append]
    unfold take_right
    rw [h]
    congr 1
    omega

/-- Witness for C8: an interaction recorded under the default capacity, and
three single pushes onto a transcript capped at two entries. -/
theorem c8_short_term_eviction_witness :
    (([] : List Entry).length + 2 ≤ 20)
  ∧ (add_to_short_term 20 [] "hi" "there" =
      ([] : List Entry) ++
        [{ role := "user", content := "hi" }, { role := "assistant", content := "there" }])
  ∧ (([⟨"user", "one"⟩, ⟨"user", "two"⟩, ⟨"user", "three"⟩] : List Entry).length = 2 + 1)
  ∧ (push_seq 2 [] [⟨"user", "one"⟩, ⟨"user", "two"⟩, ⟨"user", "three"⟩] =
      ([⟨"user", "one"⟩, ⟨"user", "two"⟩, ⟨"user", "three"⟩] : List Entry).drop 1) :=
  ⟨by decide, c8_short_term_eviction.2.1 20 [] "hi" "there" (by decide), by decide,
    c8_short_term_eviction.2.2.2 2 [⟨"user", "one"⟩, ⟨"user", "two"⟩, ⟨"user", "three"⟩]
      (by decide)⟩

/-! ## Claim theorems: long-term memory -/

/-- Counterexample refuting C9 as stated: a long-term merge whose update
mapping contains the `user_memos` key does overwrite the stored memo list —
`add_to_long_term` is a plain `dict.update` and exempts no key. Starting from
memos `["alpha"]`, merging `{"user_memos": "beta"}` replaces the whole list. -/
theorem c9_memos_counterexample :
    Dict.lookup [("user_memos", Value.list ["alpha"])] "user_memos"
      = some (Value.list ["alpha"])
  ∧ add_to_long_term [("user_memos", Value.list ["alpha"])] [("user_memos", Value.str "beta")]
      = [("user_memos", Value.str "beta")] := by
  constructor
  · rfl
  · rfl

/-- C9 (amended): `remember_fact` appends the fact to the `user_memos` list,
creating the list if absent, never dropping a prior memo and never touching
another key; long-term merges are last-write-wins for every key uniformly —
including `user_memos`, which a merge carrying that key does overwrite. -/
theorem c9_long_term_memory (ltm : Dict Value) (fact : String) (d u : Dict Value)
    (hwf : Dict.WF u) :
    (Dict.hasKey ltm "user_memos" = false →
      ∃ r, remember_fact ltm fact = some r
        ∧ Dict.lookup r "user_memos" = some (Value.list [fact])
        ∧ ∀ k, k ≠ "user_memos" → Dict.lookup r k = Dict.lookup ltm k)
  ∧ (∀ ms, Dict.lookup ltm "user_memos" = some (Value.list ms) →
      ∃ r, remember_fact ltm fact = some r
        ∧ Dict.lookup r "user_memos" = some (Value.list (ms ++ [fact]))
        ∧ ∀ k, k ≠ "user_memos" → Dict.lookup r k = Dict.lookup ltm k)
  ∧ (∀ k, Dict.lookup (add_to_long_term d u) k =
      if Dict.hasKey u k then Dict.lookup u k else Dict.lookup d k) := by
  refine ⟨?_, ?_, ?_⟩
  · intro habs
    refine ⟨Dict.insert (Dict.insert ltm "user_memos" (Value.list []))
      "user_memos" (Value.list [fact]), ?_, ?_, ?_⟩
    · simp [remember_fact, habs, Dict.lookup_insert_self]
    · rw [Dict.lookup_insert_self]
    · intro k hk
      rw [Dict.lookup_insert_ne _ _ _ hk, Dict.lookup_insert_ne _ _ _ hk]
  · intro ms hms
    have hhas : Dict.hasKey ltm "user_memos" = true := by
      rw [← Dict.isSome_lookup, hms]
      rfl
    refine ⟨Dict.insert ltm "user_memos" (Value.list (ms ++ [fact])), ?_, ?_, ?_⟩
    · simp [remember_fact, hhas, hms]
    · rw [Dict.lookup_insert_self]
    · intro k hk
      rw [Dict.lookup_insert_ne _ _ _ hk]
  · intro k
    exact Dict.lookup_update d u k hwf

/-- Witness for the amended C9: a fresh memo store, a populated memo store,
and a concrete two-key merge. -/
theorem c9_long_term_memory_witness :
    Dict.WF ([("a", Value.str "1"), ("user_memos", Value.str "x")] : Dict Value)
  ∧ ((Dict.hasKey ([("name", Value.str "sam")] : Dict Value) "user_memos" = false →
      ∃ r, remember_fact [("name", Value.str "sam")] "likes tea" = some r
        ∧ Dict.lookup r "user_memos" = some (Value.list ["likes tea"])
        ∧ ∀ k, k ≠ "user_memos" →
            Dict.lookup r k = Dict.lookup [("name", Value.str "sam")] k)
    ∧ (∀ ms, Dict.lookup ([("name", Value.str "sam")] : Dict Value) "user_memos"
          = some (Value.list ms) →
        ∃ r, remember_fact [("name", Value.str "sam")] "likes tea" = some r
          ∧ Dict.lookup r "user_memos" = some (Value.list (ms ++ ["likes tea"]))
          ∧ ∀ k, k ≠ "user_memos" →
              Dict.lookup r k = Dict.lookup [("name", Value.str "sam")] k)
    ∧ (∀ k, Dict.lookup (add_to_long_term [("b", Value.str "0")]
          [("a", Value.str "1"), ("user_memos", Value.str "x")]) k =
        if Dict.hasKey ([("a", Value.str "1"), ("user_memos", Value.str "x")] : Dict Value) k
        then Dict.lookup ([("a", Value.str "1"), ("user_memos", Value.str "x")] : Dict Value) k
        else Dict.lookup ([("b", Value.str "0")] : Dict Value) k)) :=
  ⟨by decide,
    c9_long_term_memory [("name", Value.str "sam")] "likes tea" [("b", Value.str "0")]
      [("a", Value.str "1"), ("user_memos", Value.str "x")] (by decide)⟩

/-! ## Dispatch reduction lemmas -/

theorem route_unknown_agent (env : RouteEnv) (registry : Registry) (st : UserState)
    (parsed : ParsedIntent) (hchat : parsed.agent ≠ env.chat_agent_name)
    (hreg : Dict.lookup registry parsed.agent = none) :
    route env registry st parsed = (unsupported_agent_msg parsed.agent, st) := by
  unfold route
  rw [if_neg hchat, hreg]

theorem route_unknown_action (env : RouteEnv) (registry : Registry) (st : UserState)
    (parsed : ParsedIntent) (handler : Handler)
    (hchat : parsed.agent ≠ env.chat_agent_name)
    (hreg : Dict.lookup registry parsed.agent = some handler)
    (hop : Dict.lookup handler parsed.action = none) :
    route env registry st parsed = (unsupported_action_msg parsed.agent parsed.action, st) := by
  unfold route
  rw [if_neg hchat, hreg]
  simp only [hop]

theorem route_run_error (env : RouteEnv) (registry : Registry) (st : UserState)
    (parsed : ParsedIntent) (handler : Handler) (op : Operation) (e : String)
    (hchat : parsed.agent ≠ env.chat_agent_name)
    (hreg : Dict.lookup registry parsed.agent = some handler)
    (hop : Dict.lookup handler parsed.action = some op)
    (hrun : op.run (filter_params op parsed.params) = Except.error e) :
    route env registry st parsed = (execution_error_msg parsed.agent parsed.action e, st) := by
  unfold route
  rw [if_neg hchat, hreg]
  simp only [hop, hrun]

theorem route_run_ok (env : RouteEnv) (registry : Registry) (st : UserState)
    (parsed : ParsedIntent) (handler : Handler) (op : Operation) (ret : HandlerReturn)
    (hchat : parsed.agent ≠ env.chat_agent_name)
    (hreg : Dict.lookup registry parsed.agent = some handler)
    (hop : Dict.lookup handler parsed.action = some op)
    (hrun : op.run (filter_params op parsed.params) = Except.ok ret) :
    route env registry st parsed =
      dispatch_success env st parsed.agent parsed.action parsed.raw_input parsed.params
        (normalize_result ret) := by
  unfold route
  rw [if_neg hchat, hreg]
  simp only [hop, hrun]

theorem filter_params_insert (op : Operation) (params : Dict Value) (k : String) (v : Value)
    (hnew : Dict.hasKey params k = false) (hsig : op.sig_params.contains k = false) :
    filter_params op (Dict.insert params k v) = filter_params op params := by
  rw [Dict.insert_of_hasKey_eq_false v hnew]
  unfold filter_params
  rw [List.filter_append]
  simp only [List.elem_eq_mem, decide_eq_false_iff_not] at hsig
  simp [hsig]

theorem dispatch_success_params_congr (env : RouteEnv) (st : UserState)
    (agent action raw_input : String) (params1 params2 : Dict Value) (robj : Dict Value)
    (hfile : Dict.lookup params1 "file_path" = Dict.lookup params2 "file_path")
    (hinf : env.infer_memory agent action params1 robj =
      env.infer_memory agent action params2 robj) :
    dispatch_success env st agent action raw_input params1 robj =
      dispatch_success env st agent action raw_input params2 robj := by
  unfold dispatch_success infer_and_store_memory
  rw [hfile, hinf]

/-! ## Claim theorems: the dispatch engine -/

/-- C6: dispatching with an agent that is not in the handler registry returns
the error message naming the agent with the memory state untouched; an agent
that resolves but an action that does not resolve to an operation returns the
error message naming agent and action, again with the state untouched. -/
theorem c6_unknown_agent_action (env : RouteEnv) (registry : Registry) (st : UserState)
    (parsed : ParsedIntent) (hchat : parsed.agent ≠ env.chat_agent_name) :
    (Dict.lookup registry parsed.agent = none →
      route env registry st parsed = (unsupported_agent_msg parsed.agent, st))
  ∧ (∀ handler, Dict.lookup registry parsed.agent = some handler →
      Dict.lookup handler parsed.action = none →
      route env registry st parsed = (unsupported_action_msg parsed.agent parsed.action, st)) :=
  ⟨fun h => route_unknown_agent env registry st parsed hchat h,
   fun handler hreg hop => route_unknown_action env registry st parsed handler hchat hreg hop⟩

/-- A benign environment for the concrete dispatch scenarios. -/
def env6 : RouteEnv :=
  { chat_agent_name := "chat"
    chat_branch := fun _ st => ("", st)
    beautify := fun _ _ _ => ""
    generate_followup := fun _ _ => ""
    infer_memory := fun _ _ _ _ => []
    followup_display := "You could also ask: "
    none_flag := "NONE"
    stm_max_len := 20
    action_complete := "Action complete." }

/-- One-agent registry whose only handler has no operations. -/
def reg6 : Registry := [("git", [])]

/-- A memory state with content, to exhibit that nothing is mutated. -/
def st6 : UserState :=
  { stm := [{ role := "user", content := "hello" }], ltm := [("name", Value.str "sam")] }

/-- Fully specified command naming an unregistered agent. -/
def p6a : ParsedIntent :=
  { agent := "jira", action := "create_ticket", params := [], needs := [],
    raw_input := "make a ticket" }

/-- Fully specified command naming a registered agent but an unknown action. -/
def p6b : ParsedIntent :=
  { agent := "git", action := "fly", params := [], needs := [], raw_input := "fly away" }

/-- Witness for C6 at an unknown agent and at an unknown action. -/
theorem c6_unknown_agent_action_witness :
    (p6a.agent ≠ env6.chat_agent_name)
  ∧ (Dict.lookup reg6 p6a.agent = none)
  ∧ route env6 reg6 st6 p6a = (unsupported_agent_msg p6a.agent, st6)
  ∧ (p6b.agent ≠ env6.chat_agent_name)
  ∧ (Dict.lookup reg6 p6b.agent = some [])
  ∧ (Dict.lookup ([] : Handler) p6b.action = none)
  ∧ route env6 reg6 st6 p6b = (unsupported_action_msg p6b.agent p6b.action, st6) :=
  ⟨by decide, rfl,
    (c6_unknown_agent_action env6 reg6 st6 p6a (by decide)).1 rfl,
    by decide, rfl, rfl,
    (c6_unknown_agent_action env6 reg6 st6 p6b (by decide)).2 [] rfl rfl⟩

/-- C5 (amended): an exception raised by the invoked operation is caught and
converted into the error message naming the agent, the action and the error
text, and the engine returns it without crashing or retrying — but with the
memory state entirely untouched: contrary to the claim, the short-term
transcript does not record the turn on a handler failure. -/
theorem c5_execution_error (env : RouteEnv) (registry : Registry) (st : UserState)
    (parsed : ParsedIntent) (handler : Handler) (op : Operation) (e : String)
    (hchat : parsed.agent ≠ env.chat_agent_name)
    (hreg : Dict.lookup registry parsed.agent = some handler)
    (hop : Dict.lookup handler parsed.action = some op)
    (hrun : op.run (filter_params op parsed.params) = Except.error e) :
    route env registry st parsed = (execution_error_msg parsed.agent parsed.action e, st)
  ∧ (route env registry st parsed).2.stm = st.stm
  ∧ (route env registry st parsed).2.ltm = st.ltm := by
  have h := route_run_error env registry st parsed handler op e hchat hreg hop hrun
  exact ⟨h, by rw [h], by rw [h]⟩

/-- The operation used for the C5 scenario: it always raises. -/
def op5 : Operation := { sig_params := ["name"], run := fun _ => Except.error "boom" }

/-- Registry for the C5 scenario. -/
def reg5 : Registry := [("git", [("create_repo", op5)])]

/-- Fully specified command for the C5 scenario. -/
def p5 : ParsedIntent :=
  { agent := "git", action := "create_repo", params := [("name", Value.str "demo")],
    needs := [], raw_input := "make repo" }

/-- Counterexample refuting C5 as stated: on a raising handler the router
returns the formatted error, but the short-term transcript does *not* record
the turn — the state, transcript included, is exactly the input state (the
error return on line 218 precedes the `add_to_short_term` on line 235). -/
theorem c5_transcript_counterexample :
    route env6 reg5 st6 p5 = ("git create_repo failed: boom", st6)
  ∧ (route env6 reg5 st6 p5).2.stm = [{ role := "user", content := "hello" }] := by
  constructor
  · decide
  · decide

/-- Witness for the amended C5 at a concrete raising operation. -/
theorem c5_execution_error_witness :
    (p5.agent ≠ env6.chat_agent_name)
  ∧ (Dict.lookup reg5 p5.agent = some [("create_repo", op5)])
  ∧ (Dict.lookup [("create_repo", op5)] p5.action = some op5)
  ∧ (op5.run (filter_params op5 p5.params) = Except.error "boom")
  ∧ (route env6 reg5 st6 p5 = (execution_error_msg p5.agent p5.action "boom", st6)
    ∧ (route env6 reg5 st6 p5).2.stm = st6.stm
    ∧ (route env6 reg5 st6 p5).2.ltm = st6.ltm) :=
  ⟨by decide, rfl, rfl, rfl,
    c5_execution_error env6 reg5 st6 p5 [("create_repo", op5)] op5 "boom"
      (by decide) rfl rfl rfl⟩

/-- C7 (amended): an extra parameter key outside the declared signature of the
resolved operation is never passed to the handler — the filtered params are
identical with or without it — and, provided the extra key is not `file_path`
(which the `get_file_content` display reads from the unfiltered params) and
the memory-storage inference is insensitive to the extra key (it receives the
unfiltered params), the dispatch result and the state changes are identical. -/
theorem c7_extra_param_filtered (env : RouteEnv) (registry : Registry) (st : UserState)
    (parsed : ParsedIntent) (k : String) (v : Value) (handler : Handler) (op : Operation)
    (hchat : parsed.agent ≠ env.chat_agent_name)
    (hreg : Dict.lookup registry parsed.agent = some handler)
    (hop : Dict.lookup handler parsed.action = some op)
    (hnew : Dict.hasKey parsed.params k = false)
    (hsig : op.sig_params.contains k = false)
    (hfp : k ≠ "file_path")
    (hinf : ∀ r, env.infer_memory parsed.agent parsed.action (Dict.insert parsed.params k v) r
        = env.infer_memory parsed.agent parsed.action parsed.params r) :
    filter_params op (Dict.insert parsed.params k v) = filter_params op parsed.params
  ∧ route env registry st { parsed with params := Dict.insert parsed.params k v } =
      route env registry st parsed := by
  have hfilter := filter_params_insert op parsed.params k v hnew hsig
  refine ⟨hfilter, ?_⟩
  cases hrun : op.run (filter_params op parsed.params) with
  | error e =>
    have h1 : route env registry st { parsed with params := Dict.insert parsed.params k v }
        = (execution_error_msg parsed.agent parsed.action e, st) :=
      route_run_error env registry st _ handler op e hchat hreg hop
        (by show op.run (filter_params op (Dict.insert parsed.params k v)) = Except.error e
            rw [hfilter]; exact hrun)
    have h2 : route env registry st parsed
        = (execution_error_msg parsed.agent parsed.action e, st) :=
      route_run_error env registry st parsed handler op e hchat hreg hop hrun
    rw [h1, h2]
  | ok ret =>
    have h1 : route env registry st { parsed with params := Dict.insert parsed.params k v }
        = dispatch_success env st parsed.agent parsed.action parsed.raw_input
            (Dict.insert parsed.params k v) (normalize_result ret) :=
      route_run_ok env registry st _ handler op ret hchat hreg hop
        (by show op.run (filter_params op (Dict.insert parsed.params k v)) = Except.ok ret
            rw [hfilter]; exact hrun)
    have h2 : route env registry st parsed
        = dispatch_success env st parsed.agent parsed.action parsed.raw_input
            parsed.params (normalize_result ret) :=
      route_run_ok env registry st parsed handler op ret hchat hreg hop hrun
    rw [h1, h2]
    exact dispatch_success_params_congr env st parsed.agent parsed.action parsed.raw_input
      (Dict.insert parsed.params k v) parsed.params (normalize_result ret)
      (Dict.lookup_insert_ne parsed.params k v (fun h => hfp h.symm))
      (hinf (normalize_result ret))

/-- An operation named `get_file_content` whose signature does not declare
`file_path`, returning a result object carrying `content`. -/
def op7g : Operation :=
  { sig_params := ["repo_name"]
    run := fun _ => Except.ok (HandlerReturn.dict
      [("result", Value.str "ok"), ("content", Value.str "pass")]) }

/-- Registry for the C7 display-leak scenario. -/
def reg7c : Registry := [("git", [("get_file_content", op7g)])]

/-- Fully specified `get_file_content` command without the extra key. -/
def p7c : ParsedIntent :=
  { agent := "git", action := "get_file_content",
    params := [("repo_name", Value.str "r1")], needs := [], raw_input := "show" }

/-- An environment whose memory inference depends on the unfiltered params. -/
def env7i : RouteEnv :=
  { chat_agent_name := "chat"
    chat_branch := fun _ st => ("", st)
    beautify := fun _ _ _ => ""
    generate_followup := fun _ _ => ""
    infer_memory := fun _ _ p _ =>
      if Dict.hasKey p "hint" then [("hint", Value.str "seen")] else []
    followup_display := "You could also ask: "
    none_flag := "NONE"
    stm_max_len := 20
    action_complete := "Action complete." }

/-- A plain succeeding operation for the C7 inference-leak scenario. -/
def op7n : Operation :=
  { sig_params := ["title"]
    run := fun _ => Except.ok (HandlerReturn.dict [("result", Value.str "done")]) }

/-- Registry for the C7 inference-leak scenario. -/
def reg7i : Registry := [("jira", [("create_ticket", op7n)])]

/-- Fully specified command for the C7 inference-leak scenario. -/
def p7i : ParsedIntent :=
  { agent := "jira", action := "create_ticket",
    params := [("title", Value.str "Bug")], needs := [], raw_input := "ticket" }

/-- Counterexample refuting C7 as stated: the unfiltered params leak past the
signature filter on two paths. With an extra `file_path` key outside the
signature of a `get_file_content` operation the dispatch result text differs
(the transcript, which records that text, ends up different); and with an
extra key the memory-storage inference observes, the long-term state after
dispatch differs. -/
theorem c7_extra_key_counterexample :
    (route env6 reg7c { stm := [], ltm := [] }
        { p7c with params := Dict.insert p7c.params "file_path" (Value.str "a.py") }).2.stm
      ≠ (route env6 reg7c { stm := [], ltm := [] } p7c).2.stm
  ∧ (route env7i reg7i { stm := [], ltm := [] }
        { p7i with params := Dict.insert p7i.params "hint" (Value.str "x") }).2.ltm
      ≠ (route env7i reg7i { stm := [], ltm := [] } p7i).2.ltm := by
  constructor
  · decide
  · decide

/-- Witness for the amended C7: adding the extra key `dry_run`, outside the
signature, with an inference oracle that ignores the params. -/
theorem c7_extra_param_filtered_witness :
    (p7i.agent ≠ env6.chat_agent_name)
  ∧ (Dict.lookup reg7i p7i.agent = some [("create_ticket", op7n)])
  ∧ (Dict.lookup [("create_ticket", op7n)] p7i.action = some op7n)
  ∧ (Dict.hasKey p7i.params "dry_run" = false)
  ∧ (op7n.sig_params.contains "dry_run" = false)
  ∧ ("dry_run" ≠ "file_path")
  ∧ (∀ r, env6.infer_memory p7i.agent p7i.action
        (Dict.insert p7i.params "dry_run" (Value.str "yes")) r
      = env6.infer_memory p7i.agent p7i.action p7i.params r)
  ∧ (filter_params op7n (Dict.insert p7i.params "dry_run" (Value.str "yes"))
        = filter_params op7n p7i.params
    ∧ route env6 reg7i { stm := [], ltm := [] }
        { p7i with params := Dict.insert p7i.params "dry_run" (Value.str "yes") }
      = route env6 reg7i { stm := [], ltm := [] } p7i) :=
  ⟨by decide, rfl, rfl, by decide, by decide, by decide, fun r => rfl,
    c7_extra_param_filtered env6 reg7i { stm := [], ltm := [] } p7i "dry_run"
      (Value.str "yes") [("create_ticket", op7n)] op7n
      (by decide) rfl rfl (by decide) (by decide) (by decide) (fun r => rfl)⟩
